import Mathlib

/-!
# Verification of the AI Business Decision Simulator core

Shallow embedding of the simulation-and-verdict engine of `app.py`:
historical statistics from the dataset, scenario adjustment, Monte Carlo
profit sampling, risk statistics (mean, loss probability, numpy-style
linear-interpolation percentiles) and the strategic-verdict decision policy.

Real numbers are modelled as `ℚ`.  A normal draw `Normal(μ, σ)` is modelled
as `μ + σ * z k`, where `z : ℕ → ℚ` is the stream of standard normal variates
produced by the seeded PRNG in draw order (iteration `k` consumes draw `2*k`
for units and draw `2*k + 1` for cost, matching the loop body order).
Pandas `mean`/`std` on too-short columns return NaN; NaN is modelled as
`none`.  Since a standard deviation is an irrational square root, the model
tracks the sample *variance* (the square of the std) wherever the std's
defining formula matters.
-/

/-- One row of the business dataset (the columns the core reads). -/
structure BizRecord where
  price : ℚ
  unitsSold : ℚ
  totalCost : ℚ
  profit : ℚ
deriving DecidableEq, Inhabited

/-- Pandas column mean: NaN (`none`) on an empty column, else the arithmetic
mean. -/
def listMean (xs : List ℚ) : Option ℚ :=
  if xs.length = 0 then none else some (xs.sum / xs.length)

/-- Pandas column `std()` squared, i.e. the sample variance with `ddof = 1`:
NaN (`none`) when fewer than two values, else `(Σx² − (Σx)²/n) / (n − 1)`. -/
def sampleVariance (xs : List ℚ) : Option ℚ :=
  if xs.length < 2 then none
  else some (((xs.map fun x => x ^ 2).sum - xs.sum ^ 2 / xs.length)
    / (xs.length - 1))

/-- Error taxonomy of the spec for `HistoricalProfile.build`. -/
inductive BuildError where
  | emptyDataset
  | insufficientData
deriving DecidableEq

/-- The five baseline statistics computed at lines 80–89 of `app.py`. -/
structure HistoricalStats where
  basePrice : Option ℚ
  baseUnits : Option ℚ
  baseCost : Option ℚ
  unitsVariance : Option ℚ
  costVariance : Option ℚ
deriving DecidableEq

/-- `app.py` lines 80–89: the baseline statistics are computed by plain
pandas aggregation; no dataset-size check is performed and no error is ever
raised, so the result is always `Except.ok` (NaN-valued fields are `none`). -/
def buildProfile (ds : List BizRecord) : Except BuildError HistoricalStats :=
  Except.ok
    { basePrice := listMean (ds.map (·.price))
      baseUnits := listMean (ds.map (·.unitsSold))
      baseCost := listMean (ds.map (·.totalCost))
      unitsVariance := sampleVariance (ds.map (·.unitsSold))
      costVariance := sampleVariance (ds.map (·.totalCost)) }

/-- `app.py` line 85: `adjusted_price = base_price * (1 + price_change)`. -/
def adjustedPriceOf (meanPrice priceChangePct : ℚ) : ℚ :=
  meanPrice * (1 + priceChangePct)

/-- `app.py` line 86:
`adjusted_units = base_units * (1 + marketing_boost + economic_shock)`. -/
def adjustedUnitsOf (meanUnits marketingBoostPct economicShock : ℚ) : ℚ :=
  meanUnits * (1 + marketingBoostPct + economicShock)

/-- `app.py` lines 94–99, the Monte Carlo loop: iteration `k` draws
`units = max(Normal(adjustedUnits, stdUnits), 0)` (draw `2*k` of the stream),
then `cost = max(Normal(meanCost, stdCost), 0)` (draw `2*k + 1`), and appends
`adjustedPrice * units - cost`. -/
def sampleProfits (adjustedPrice adjustedUnits stdUnits meanCost stdCost : ℚ)
    (z : ℕ → ℚ) (n : ℕ) : List ℚ :=
  (List.range n).map fun k =>
    adjustedPrice * max (adjustedUnits + stdUnits * z (2 * k)) 0
      - max (meanCost + stdCost * z (2 * k + 1)) 0

/-- Error taxonomy of the spec for `ProfitSampler.sample`. -/
inductive SampleError where
  | invalidSampleCount
deriving DecidableEq

/-- The sampler over an integer count, as the Python loop actually behaves:
`range(count)` is empty for `count ≤ 0` (Python `range` truncates negative
counts to zero iterations), and no error is ever raised. -/
def sampleProfitsChecked (adjustedPrice adjustedUnits stdUnits meanCost
    stdCost : ℚ) (z : ℕ → ℚ) (count : ℤ) :
    Except SampleError (List ℚ) :=
  Except.ok
    (sampleProfits adjustedPrice adjustedUnits stdUnits meanCost stdCost z
      count.toNat)

/-- A PRNG model: a family of standard normal draw streams indexed by seed.
`app.py` line 91 fixes the seed (`np.random.seed(42)`), then the loop reads
the stream in order. -/
def runSimulation (prng : ℕ → ℕ → ℚ) (seed : ℕ)
    (adjustedPrice adjustedUnits stdUnits meanCost stdCost : ℚ) (n : ℕ) :
    List ℚ :=
  sampleProfits adjustedPrice adjustedUnits stdUnits meanCost stdCost
    (prng seed) n

/-- The seed `app.py` line 91 passes to `np.random.seed`. -/
def appSeed : ℕ := 42

/-- Numpy linear-interpolation percentile on an already sorted list `s`:
with `n = s.length`, `h = p * (n − 1) / 100`, `i = ⌊h⌋`, the result is
`s[i] + (h − i) * (s[min (i+1) (n−1)] − s[i])`. -/
def interpAt (s : List ℚ) (p : ℚ) : ℚ :=
  let n := s.length
  let h := p * ((n : ℚ) - 1) / 100
  let i := (⌊h⌋).toNat
  let lo := s.getD i 0
  let hi := s.getD (min (i + 1) (n - 1)) 0
  lo + (h - (i : ℚ)) * (hi - lo)

/-- `np.percentile(xs, p)` with the default linear interpolation method:
sort ascending, then interpolate between order statistics. -/
def percentile (xs : List ℚ) (p : ℚ) : ℚ :=
  interpAt (List.insertionSort (· ≤ ·) xs) p


/-- Let-free form of `interpAt` with the interpolation index written out. -/
def interpCore (s : List ℚ) (h : ℚ) : ℚ :=
  s.getD (⌊h⌋).toNat 0
    + (h - ((⌊h⌋).toNat : ℚ))
      * (s.getD (min ((⌊h⌋).toNat + 1) (s.length - 1)) 0
        - s.getD (⌊h⌋).toNat 0)

/-- Arithmetic mean (`ndarray.mean`); division by zero length yields `0`
in `ℚ`, but every use below is on a non-empty sample. -/
def arrMean (xs : List ℚ) : ℚ := xs.sum / xs.length

/-- The five risk metrics of `app.py` lines 105–109. -/
structure RiskReport where
  expectedProfit : ℚ
  worstCase1pct : ℚ
  bestCase99pct : ℚ
  lossProbabilityPct : ℚ
  valueAtRisk95 : ℚ
deriving DecidableEq

/-- `app.py` lines 105–109: mean, 1st/99th/5th percentiles, and
`(profits < 0).mean() * 100` (mean of the 0/1 indicator of a loss). -/
def analyze (profits : List ℚ) : RiskReport :=
  { expectedProfit := arrMean profits
    worstCase1pct := percentile profits 1
    bestCase99pct := percentile profits 99
    lossProbabilityPct :=
      arrMean (profits.map fun x => if x < 0 then (1 : ℚ) else 0) * 100
    valueAtRisk95 := percentile profits 5 }

/-- Risk appetite selector (`app.py` lines 47–50). -/
inductive RiskAppetite where
  | low
  | medium
  | high
deriving DecidableEq

/-- The four strategic verdicts of `app.py` lines 144–155. -/
inductive Verdict where
  | hyperGrowth
  | defensive
  | highRiskHighReward
  | smartControlledExpansion
deriving DecidableEq

/-- The fixed explanation text attached to each verdict
(`app.py` lines 146, 149, 152, 155). -/
def verdictText : Verdict → String
  | .hyperGrowth =>
      "AI predicts strong upside with controlled downside risk. Scale aggressively."
  | .defensive =>
      "Downside risk dominates. Preserve cash, reduce exposure."
  | .highRiskHighReward =>
      "Massive upside possible. Suitable only for bold leadership."
  | .smartControlledExpansion =>
      "Balanced growth with AI-validated safety margins."

/-- `app.py` lines 144–155: the verdict if/elif chain, returning the verdict
together with its explanation string exactly as the code assigns them. -/
def decideFull (expectedProfit lossProbabilityPct bestCase99
    latestProfit : ℚ) (ra : RiskAppetite) : Verdict × String :=
  if expectedProfit > latestProfit * (13 / 10) ∧ lossProbabilityPct < 15 then
    (.hyperGrowth,
      "AI predicts strong upside with controlled downside risk. Scale aggressively.")
  else if lossProbabilityPct > 35 then
    (.defensive, "Downside risk dominates. Preserve cash, reduce exposure.")
  else if ra = .high ∧ bestCase99 > latestProfit * 2 then
    (.highRiskHighReward,
      "Massive upside possible. Suitable only for bold leadership.")
  else
    (.smartControlledExpansion,
      "Balanced growth with AI-validated safety margins.")

/-- The verdict component of the decision policy. -/
def decideVerdict (expectedProfit lossProbabilityPct bestCase99
    latestProfit : ℚ) (ra : RiskAppetite) : Verdict :=
  (decideFull expectedProfit lossProbabilityPct bestCase99 latestProfit ra).1

/-- `app.py` line 142: `latest = df.iloc[-1]`, the row at index `n − 1`. -/
def latestRecord (ds : List BizRecord) : BizRecord :=
  ds.getD (ds.length - 1) default

/-- The profit figure the verdict branching reads
(`latest["Profit"]` at lines 144 and 150). -/
def latestActualProfit (ds : List BizRecord) : ℚ :=
  (latestRecord ds).profit

/-- The verdict as the app computes it from a dataset plus risk metrics. -/
def appVerdict (ds : List BizRecord)
    (expectedProfit lossProbabilityPct bestCase99 : ℚ) (ra : RiskAppetite) :
    Verdict :=
  decideVerdict expectedProfit lossProbabilityPct bestCase99
    (latestActualProfit ds) ra

/-- `app.py` line 167: the closing-insight upside factor
`(best_case / abs(worst_case)) if worst_case != 0 else 0`. -/
def upsideFactor (bestCase worstCase : ℚ) : ℚ :=
  if worstCase ≠ 0 then bestCase / |worstCase| else 0

/-! ## Helper lemmas -/

lemma getD_map_range (f : ℕ → ℚ) (n i : ℕ) (hi : i < n) :
    ((List.range n).map f).getD i 0 = f i := by
  simp [List.getD_eq_getElem?_getD, List.getElem?_map, List.getElem?_range, hi]


lemma interpAt_eq_core (s : List ℚ) (p : ℚ) :
    interpAt s p = interpCore s (p * ((s.length : ℚ) - 1) / 100) := rfl

lemma sum_sq_sub (xs : List ℚ) (m : ℚ) :
    (xs.map fun x => (x - m) ^ 2).sum
      = (xs.map fun x => x ^ 2).sum - 2 * m * xs.sum + xs.length * m ^ 2 := by
  induction xs with
  | nil => simp
  | cons a t ih =>
    simp only [List.map_cons, List.sum_cons, ih, List.length_cons]
    push_cast
    ring

lemma sampleVariance_eq (xs : List ℚ) (h : 2 ≤ xs.length) :
    sampleVariance xs =
      some ((xs.map fun x => (x - arrMean xs) ^ 2).sum
        / ((xs.length : ℚ) - 1)) := by
  have hpos : 0 < xs.length := by omega
  have hn : (xs.length : ℚ) ≠ 0 := by exact_mod_cast hpos.ne'
  rw [sampleVariance, if_neg (by omega), sum_sq_sub, arrMean]
  congr 2
  field_simp
  ring

lemma sum_indicator (xs : List ℚ) :
    (xs.map fun x => if x < 0 then (1 : ℚ) else 0).sum
      = ((xs.countP fun x => decide (x < 0)) : ℚ) := by
  induction xs with
  | nil => simp
  | cons a t ih =>
    by_cases ha : a < 0
    · simp [List.countP_cons, ha, ih]
      ring
    · simp [List.countP_cons, ha, ih]

lemma sorted_getD_mono (s : List ℚ) (hs : s.Sorted (· ≤ ·)) (a b : ℕ)
    (hab : a ≤ b) (hb : b < s.length) :
    s.getD a 0 ≤ s.getD b 0 := by
  have ha : a < s.length := lt_of_le_of_lt hab hb
  have hr := hs.rel_get_of_le (a := ⟨a, ha⟩) (b := ⟨b, hb⟩) hab
  rw [List.getD_eq_getElem s 0 ha, List.getD_eq_getElem s 0 hb]
  simpa [List.get_eq_getElem] using hr

lemma toNat_floor_cast (h : ℚ) (h0 : 0 ≤ h) :
    (((⌊h⌋).toNat : ℕ) : ℚ) = ((⌊h⌋ : ℤ) : ℚ) := by
  have hfl0 : (0 : ℤ) ≤ ⌊h⌋ := Int.le_floor.mpr (by exact_mod_cast h0)
  exact_mod_cast congrArg (fun z : ℤ => (z : ℚ)) (Int.toNat_of_nonneg hfl0)

lemma floor_index_le (s : List ℚ) (hne : s ≠ []) (h : ℚ) (h0 : 0 ≤ h)
    (h1 : h ≤ (s.length : ℚ) - 1) : (⌊h⌋).toNat ≤ s.length - 1 := by
  have hlen : 1 ≤ s.length := List.length_pos.mpr hne
  have h2 : ((⌊h⌋).toNat : ℚ) ≤ (s.length : ℚ) - 1 := by
    rw [toNat_floor_cast h h0]
    linarith [Int.floor_le h]
  have h3 : ((⌊h⌋).toNat : ℚ) ≤ ((s.length - 1 : ℕ) : ℚ) := by
    rw [Nat.cast_sub hlen]
    push_cast
    linarith
  exact_mod_cast h3

lemma getD_le_getD_min (s : List ℚ) (hs : s.Sorted (· ≤ ·)) (i : ℕ)
    (hile : i ≤ s.length - 1) (hlen : 1 ≤ s.length) :
    s.getD i 0 ≤ s.getD (min (i + 1) (s.length - 1)) 0 :=
  sorted_getD_mono s hs i _ (by omega) (by omega)

lemma interpCore_bounds (s : List ℚ) (hs : s.Sorted (· ≤ ·)) (hne : s ≠ [])
    (h : ℚ) (h0 : 0 ≤ h) (h1 : h ≤ (s.length : ℚ) - 1) :
    s.getD (⌊h⌋).toNat 0 ≤ interpCore s h
    ∧ interpCore s h ≤ s.getD (min ((⌊h⌋).toNat + 1) (s.length - 1)) 0 := by
  have hlen : 1 ≤ s.length := List.length_pos.mpr hne
  have hgam0 : 0 ≤ h - ((⌊h⌋).toNat : ℚ) := by
    rw [toNat_floor_cast h h0]
    linarith [Int.floor_le h]
  have hgam1 : h - ((⌊h⌋).toNat : ℚ) ≤ 1 := by
    rw [toNat_floor_cast h h0]
    have hf := Int.lt_floor_add_one h
    push_cast at hf ⊢
    linarith
  have hlohi : s.getD (⌊h⌋).toNat 0 ≤
      s.getD (min ((⌊h⌋).toNat + 1) (s.length - 1)) 0 :=
    getD_le_getD_min s hs _ (floor_index_le s hne h h0 h1) hlen
  unfold interpCore
  constructor
  · nlinarith [mul_nonneg hgam0 (sub_nonneg.mpr hlohi)]
  · nlinarith [mul_le_mul_of_nonneg_right hgam1 (sub_nonneg.mpr hlohi)]

lemma interpCore_mono (s : List ℚ) (hs : s.Sorted (· ≤ ·)) (hne : s ≠ [])
    (g h : ℚ) (h0 : 0 ≤ g) (hgh : g ≤ h) (h1 : h ≤ (s.length : ℚ) - 1) :
    interpCore s g ≤ interpCore s h := by
  have hlen : 1 ≤ s.length := List.length_pos.mpr hne
  have hb1 := interpCore_bounds s hs hne g h0 (le_trans hgh h1)
  have hb2 := interpCore_bounds s hs hne h (le_trans h0 hgh) h1
  have hi : (⌊g⌋).toNat ≤ (⌊h⌋).toNat :=
    Int.toNat_le_toNat (Int.floor_le_floor hgh)
  rcases Nat.eq_or_lt_of_le hi with heq | hlt
  · have hlohi : s.getD (⌊g⌋).toNat 0 ≤
        s.getD (min ((⌊g⌋).toNat + 1) (s.length - 1)) 0 :=
      getD_le_getD_min s hs _
        (floor_index_le s hne g h0 (le_trans hgh h1)) hlen
    unfold interpCore
    rw [← heq]
    have hmul := mul_le_mul_of_nonneg_right
      (sub_le_sub_right hgh (((⌊g⌋).toNat : ℚ)))
      (sub_nonneg.mpr hlohi)
    linarith
  · have hih : (⌊h⌋).toNat ≤ s.length - 1 :=
      floor_index_le s hne h (le_trans h0 hgh) h1
    have hmid : s.getD (min ((⌊g⌋).toNat + 1) (s.length - 1)) 0 ≤
        s.getD (⌊h⌋).toNat 0 :=
      sorted_getD_mono s hs _ _ (by omega) (by omega)
    linarith [hb1.2, hb2.1]

lemma percentile_mono (xs : List ℚ) (hne : xs ≠ []) (p q : ℚ)
    (h0 : 0 ≤ p) (hpq : p ≤ q) (h100 : q ≤ 100) :
    percentile xs p ≤ percentile xs q := by
  have hperm := List.perm_insertionSort (· ≤ ·) xs
  have hsne : List.insertionSort (· ≤ ·) xs ≠ [] := by
    intro hc
    exact hne ((hc ▸ hperm).symm.eq_nil)
  have hsorted := List.sorted_insertionSort (· ≤ ·) xs
  have hlenq : (1 : ℚ) ≤ ((List.insertionSort (· ≤ ·) xs).length : ℚ) := by
    exact_mod_cast List.length_pos.mpr hsne
  rw [percentile, percentile, interpAt_eq_core, interpAt_eq_core]
  apply interpCore_mono _ hsorted hsne
  · apply div_nonneg (mul_nonneg h0 (by linarith)) (by norm_num)
  · apply (div_le_div_iff_of_pos_right (by norm_num : (0 : ℚ) < 100)).mpr
    exact mul_le_mul_of_nonneg_right hpq (by linarith)
  · rw [div_le_iff₀ (by norm_num : (0 : ℚ) < 100)]
    nlinarith

/-! ## Claims -/

/-- C1: for every `sampleCount > 0` the sampler returns exactly `sampleCount`
profit values, the `k`-th produced from a units draw from
`Normal(adjustedUnits, stdUnits)` clamped below at 0 (stream draw `2*k`)
immediately followed by a cost draw from `Normal(meanCost, stdCost)` clamped
below at 0 (stream draw `2*k + 1`), with
`profit = adjustedPrice × units − cost`. -/
theorem C1_sampler_shape (ap au su mc sc : ℚ) (z : ℕ → ℚ) (n : ℕ)
    (hn : 0 < n) :
    (sampleProfits ap au su mc sc z n).length = n ∧
    ∀ i, i < n → (sampleProfits ap au su mc sc z n).getD i 0 =
      ap * max (au + su * z (2 * i)) 0 - max (mc + sc * z (2 * i + 1)) 0 := by
  exact ⟨by simp [sampleProfits], fun i hi => getD_map_range _ n i hi⟩

unseal Rat.add Rat.mul Rat.inv Rat.sub in
/-- Witness for C1 at concrete inputs: two samples with the stream that is 1
on even draws and -5 on odd draws (so every cost draw clamps to 0). -/
theorem C1_sampler_shape_witness :
    (sampleProfits 2 10 1 3 1 (fun k => if k % 2 = 0 then (1 : ℚ) else -5)
      2).length = 2 ∧
    (sampleProfits 2 10 1 3 1 (fun k => if k % 2 = 0 then (1 : ℚ) else -5)
      2).getD 1 0 = 22 := by
  have h := C1_sampler_shape 2 10 1 3 1
    (fun k => if k % 2 = 0 then (1 : ℚ) else -5) 2 (by decide)
  refine ⟨h.1, ?_⟩
  rw [h.2 1 (by decide)]
  decide

/-- C2: the decision policy is total, evaluates the four rules in strict
priority order with the first match winning, attaches exactly the fixed
explanation text of the verdict table, and in particular an input satisfying
both the rule-1 and rule-3 conditions gets `HYPER_GROWTH`. -/
theorem C2_decision_policy (ep lp bc lap : ℚ) (ra : RiskAppetite) :
    ((ep > lap * (13 / 10) ∧ lp < 15) →
      decideFull ep lp bc lap ra = (.hyperGrowth, verdictText .hyperGrowth))
    ∧ (¬(ep > lap * (13 / 10) ∧ lp < 15) → lp > 35 →
      decideFull ep lp bc lap ra = (.defensive, verdictText .defensive))
    ∧ (¬(ep > lap * (13 / 10) ∧ lp < 15) → ¬(lp > 35) →
      (ra = .high ∧ bc > lap * 2) →
      decideFull ep lp bc lap ra =
        (.highRiskHighReward, verdictText .highRiskHighReward))
    ∧ (¬(ep > lap * (13 / 10) ∧ lp < 15) → ¬(lp > 35) →
      ¬(ra = .high ∧ bc > lap * 2) →
      decideFull ep lp bc lap ra =
        (.smartControlledExpansion, verdictText .smartControlledExpansion))
    ∧ verdictText .hyperGrowth =
        "AI predicts strong upside with controlled downside risk. Scale aggressively."
    ∧ verdictText .defensive =
        "Downside risk dominates. Preserve cash, reduce exposure."
    ∧ verdictText .highRiskHighReward =
        "Massive upside possible. Suitable only for bold leadership."
    ∧ verdictText .smartControlledExpansion =
        "Balanced growth with AI-validated safety margins."
    ∧ (((ep > lap * (13 / 10) ∧ lp < 15) ∧ (ra = .high ∧ bc > lap * 2)) →
      decideVerdict ep lp bc lap ra = .hyperGrowth) := by
  refine ⟨?_, ?_, ?_, ?_, rfl, rfl, rfl, rfl, ?_⟩ <;>
    intros <;>
    simp only [decideFull, decideVerdict, verdictText] <;>
    split_ifs <;>
    first
      | rfl
      | tauto

/-- Witness for C2: a concrete input satisfying both the rule-1 and rule-3
conditions is decided as `HYPER_GROWTH` with its fixed explanation. -/
theorem C2_decision_policy_witness :
    decideFull 100 5 100 10 RiskAppetite.high =
      (Verdict.hyperGrowth,
        "AI predicts strong upside with controlled downside risk. Scale aggressively.")
    ∧ decideVerdict 100 5 100 10 RiskAppetite.high = Verdict.hyperGrowth := by
  obtain ⟨h1, -, -, -, -, -, -, -, h9⟩ :=
    C2_decision_policy 100 5 100 10 RiskAppetite.high
  exact ⟨h1 ⟨by norm_num, by norm_num⟩,
    h9 ⟨⟨by norm_num, by norm_num⟩, rfl, by norm_num⟩⟩

/-- C4: the adjusted parameters satisfy
`adjustedPrice = meanPrice × (1 + priceChangePct)` and
`adjustedUnits = meanUnits × (1 + marketingBoostPct + economicShock)`. -/
theorem C4_adjusted_parameters (meanPrice priceChangePct meanUnits
    marketingBoostPct economicShock : ℚ) :
    adjustedPriceOf meanPrice priceChangePct =
      meanPrice * (1 + priceChangePct)
    ∧ adjustedUnitsOf meanUnits marketingBoostPct economicShock =
      meanUnits * (1 + marketingBoostPct + economicShock) :=
  ⟨rfl, rfl⟩

/-- C5: sampling is deterministic — two runs with the same seed, the same
adjusted parameters, the same historical statistics and the same sample
count produce element-by-element identical profit sequences. -/
theorem C5_determinism (prng : ℕ → ℕ → ℚ)
    (seed seed' : ℕ) (ap ap' au au' su su' mc mc' sc sc' : ℚ) (n n' : ℕ)
    (hseed : seed = seed') (hap : ap = ap') (hau : au = au') (hsu : su = su')
    (hmc : mc = mc') (hsc : sc = sc') (hn : n = n') :
    runSimulation prng seed ap au su mc sc n =
      runSimulation prng seed' ap' au' su' mc' sc' n'
    ∧ ∀ i, (runSimulation prng seed ap au su mc sc n).getD i 0 =
      (runSimulation prng seed' ap' au' su' mc' sc' n').getD i 0 := by
  subst hseed hap hau hsu hmc hsc hn
  exact ⟨rfl, fun _ => rfl⟩

/-- Witness for C5 at concrete inputs (the two runs written with
syntactically different but equal parameters, seed `42` as in the app). -/
theorem C5_determinism_witness :
    runSimulation (fun s k => (s : ℚ) + k) appSeed 2 10 1 3 1 5 =
      runSimulation (fun s k => (s : ℚ) + k) (41 + 1) (4 / 2) 10 1 3 1 5 := by
  exact (C5_determinism (fun s k => (s : ℚ) + k) appSeed (41 + 1) 2 (4 / 2)
    10 10 1 1 3 3 1 1 5 5 (by norm_num [appSeed]) (by norm_num) rfl rfl rfl
    rfl rfl).1

/-- C7 fails on the code: for a non-positive sample count the loop
`for _ in range(simulation_runs)` simply runs zero times, so the sampler
returns an empty profit list and raises nothing. -/
theorem C7_counterexample :
    sampleProfitsChecked 1 1 1 1 1 (fun _ => 0) (-1) = Except.ok []
    ∧ sampleProfitsChecked 1 1 1 1 1 (fun _ => 0) (-1) ≠
      Except.error SampleError.invalidSampleCount :=
  ⟨rfl, fun h => Except.noConfusion h⟩

/-- C7 amended: for every `sampleCount ≤ 0` the sampler raises no error and
returns an empty profits sequence. -/
theorem C7_nonpositive_count (ap au su mc sc : ℚ) (z : ℕ → ℚ) (count : ℤ)
    (hc : count ≤ 0) :
    sampleProfitsChecked ap au su mc sc z count = Except.ok [] := by
  have h0 : count.toNat = 0 := Int.toNat_of_nonpos hc
  simp [sampleProfitsChecked, sampleProfits, h0]

/-- Witness for C7 amended at `count = -3`. -/
theorem C7_nonpositive_count_witness :
    sampleProfitsChecked 2 10 1 3 1 (fun k => k) (-3) = Except.ok [] :=
  C7_nonpositive_count 2 10 1 3 1 (fun k => k) (-3) (by norm_num)

/-- C9: the closing-insight upside factor is
`bestCase99pct / |worstCase1pct|` when `worstCase1pct ≠ 0` and `0` when
`worstCase1pct = 0`; the division is guarded and the computation total. -/
theorem C9_upside_factor (bestCase worstCase : ℚ) :
    (worstCase ≠ 0 → upsideFactor bestCase worstCase = bestCase / |worstCase|)
    ∧ (worstCase = 0 → upsideFactor bestCase worstCase = 0) := by
  constructor
  · intro h
    simp [upsideFactor, h]
  · intro h
    simp [upsideFactor, h]

/-- Witness for C9 at `bestCase = 3, worstCase = -2` and at
`worstCase = 0`. -/
theorem C9_upside_factor_witness :
    upsideFactor 3 (-2) = 3 / 2 ∧ upsideFactor 1 0 = 0 := by
  constructor
  · rw [(C9_upside_factor 3 (-2)).1 (by norm_num)]
    norm_num
  · exact (C9_upside_factor 1 0).2 rfl

/-- C10: the `latestActualProfit` fed to the decision policy is the `Profit`
field of the last record of the dataset (`df.iloc[-1]`), for every non-empty
dataset. -/
theorem C10_latest_profit (ds : List BizRecord) (h : ds ≠ []) (ep lp bc : ℚ)
    (ra : RiskAppetite) :
    appVerdict ds ep lp bc ra =
      decideVerdict ep lp bc ((ds.getLast h).profit) ra
    ∧ latestActualProfit ds = (ds.getLast h).profit := by
  have hlen : ds.length - 1 < ds.length := by
    cases ds with
    | nil => exact absurd rfl h
    | cons a t => simp
  have hd : latestRecord ds = ds.getLast h := by
    rw [latestRecord, List.getD_eq_getElem ds default hlen,
      List.getLast_eq_getElem]
  refine ⟨?_, ?_⟩ <;>
    simp [appVerdict, latestActualProfit, hd]

/-- Witness for C10 on a concrete two-record dataset whose last record has
profit 7. -/
theorem C10_latest_profit_witness :
    appVerdict [⟨1, 1, 1, 5⟩, ⟨2, 2, 2, 7⟩] 100 5 100 RiskAppetite.high =
      decideVerdict 100 5 100 7 RiskAppetite.high
    ∧ latestActualProfit [⟨1, 1, 1, 5⟩, ⟨2, 2, 2, 7⟩] = 7 := by
  have h := C10_latest_profit [⟨1, 1, 1, 5⟩, ⟨2, 2, 2, 7⟩] (by simp) 100 5
    100 RiskAppetite.high
  exact ⟨h.1, h.2⟩

/-- C3: for every non-empty profits sequence the risk report has
`expectedProfit` the arithmetic mean, `lossProbabilityPct` equal to
`100 × (count of profits < 0) / sampleCount`, and the 1st/5th/99th
percentiles computed by linear interpolation between order statistics of a
sorted permutation of the sample. -/
theorem C3_risk_report (profits : List ℚ) (hne : profits ≠ []) :
    (analyze profits).expectedProfit = profits.sum / profits.length
    ∧ (analyze profits).lossProbabilityPct
        = 100 * ((profits.countP fun x => decide (x < 0)) : ℚ)
          / profits.length
    ∧ ∃ s : List ℚ, s.Perm profits ∧ s.Sorted (· ≤ ·)
        ∧ (analyze profits).worstCase1pct = interpAt s 1
        ∧ (analyze profits).valueAtRisk95 = interpAt s 5
        ∧ (analyze profits).bestCase99pct = interpAt s 99 := by
  refine ⟨rfl, ?_, ?_⟩
  · show arrMean (profits.map fun x => if x < 0 then (1 : ℚ) else 0) * 100
      = 100 * ((profits.countP fun x => decide (x < 0)) : ℚ) / profits.length
    rw [arrMean, List.length_map, sum_indicator]
    ring
  · exact ⟨List.insertionSort (· ≤ ·) profits, List.perm_insertionSort _ _,
      List.sorted_insertionSort _ _, rfl, rfl, rfl⟩

unseal Rat.add Rat.mul Rat.inv Rat.sub in
/-- Witness for C3 on the sample `[1, -2]`: mean `-1/2`, loss probability
`50`. -/
theorem C3_risk_report_witness :
    (analyze [(1 : ℚ), -2]).expectedProfit = -1 / 2
    ∧ (analyze [(1 : ℚ), -2]).lossProbabilityPct = 50 := by
  obtain ⟨h1, h2, -⟩ := C3_risk_report [(1 : ℚ), -2] (by simp)
  refine ⟨?_, ?_⟩
  · rw [h1]
    decide
  · rw [h2]
    decide

/-- C6 fails on the code: the baseline aggregation performs no dataset-size
check, so an empty dataset and a one-record dataset both produce an
`Except.ok` profile (with NaN-valued, here `none`-valued, statistics) and no
error is ever raised. -/
theorem C6_counterexample :
    buildProfile [] ≠ Except.error BuildError.emptyDataset
    ∧ buildProfile [⟨10, 100, 500, 50⟩] ≠
      Except.error BuildError.insufficientData
    ∧ (buildProfile []).isOk = true
    ∧ (buildProfile [⟨10, 100, 500, 50⟩]).isOk = true :=
  ⟨fun h => Except.noConfusion h, fun h => Except.noConfusion h, rfl, rfl⟩

/-- C6 amended: building from zero records silently yields undefined (NaN,
modelled `none`) means and standard deviations rather than raising
`EmptyDatasetError`; one record yields defined means but NaN standard
deviations rather than raising `InsufficientDataError`; for at least two
records the standard deviations follow the sample (N−1) formula — the
variance equals `Σ(x − mean)² / (N − 1)`. -/
theorem C6_build_stats (ds : List BizRecord) :
    (ds = [] → buildProfile ds = Except.ok ⟨none, none, none, none, none⟩)
    ∧ (ds.length = 1 → buildProfile ds = Except.ok
        ⟨some (arrMean (ds.map (·.price))),
         some (arrMean (ds.map (·.unitsSold))),
         some (arrMean (ds.map (·.totalCost))),
         none, none⟩)
    ∧ (2 ≤ ds.length → buildProfile ds = Except.ok
        ⟨some (arrMean (ds.map (·.price))),
         some (arrMean (ds.map (·.unitsSold))),
         some (arrMean (ds.map (·.totalCost))),
         some (((ds.map (·.unitsSold)).map
            fun x => (x - arrMean (ds.map (·.unitsSold))) ^ 2).sum
            / ((ds.length : ℚ) - 1)),
         some (((ds.map (·.totalCost)).map
            fun x => (x - arrMean (ds.map (·.totalCost))) ^ 2).sum
            / ((ds.length : ℚ) - 1))⟩) := by
  refine ⟨?_, ?_, ?_⟩
  · rintro rfl
    rfl
  · intro h1
    simp [buildProfile, listMean, sampleVariance, arrMean, h1,
      List.length_map]
  · intro h2
    have hlen : ds.length ≠ 0 := by omega
    have hu := sampleVariance_eq (ds.map (·.unitsSold))
      (by rw [List.length_map]; exact h2)
    have hc := sampleVariance_eq (ds.map (·.totalCost))
      (by rw [List.length_map]; exact h2)
    simp only [List.length_map] at hu hc
    simp [buildProfile, listMean, List.length_map, hlen, hu, hc, arrMean]

unseal Rat.add Rat.mul Rat.inv Rat.sub in
/-- Witness for C6 amended on a concrete two-record dataset: units
`[100, 80]` give mean `90` and sample variance `200`; costs `[500, 400]`
give mean `450` and sample variance `5000`. -/
theorem C6_build_stats_witness :
    buildProfile [⟨10, 100, 500, 50⟩, ⟨12, 80, 400, 60⟩] =
      Except.ok ⟨some 11, some 90, some 450, some 200, some 5000⟩ := by
  rw [(C6_build_stats [⟨10, 100, 500, 50⟩, ⟨12, 80, 400, 60⟩]).2.2
    (by decide)]
  exact congrArg Except.ok (by decide)

unseal Rat.add Rat.mul Rat.inv Rat.sub in
set_option maxRecDepth 100000 in
/-- C8 fails on the code: on the 100-element sample with one `-1` and 99
zeros the mean is `-1/100`, strictly below the 5th percentile `0`, so the
chain `worstCase1pct ≤ valueAtRisk95 ≤ expectedProfit ≤ bestCase99pct`
breaks at `valueAtRisk95 ≤ expectedProfit`. -/
theorem C8_counterexample :
    ((-1 : ℚ) :: List.replicate 99 0).length = 100
    ∧ ¬ ((analyze ((-1 : ℚ) :: List.replicate 99 0)).worstCase1pct ≤
          (analyze ((-1 : ℚ) :: List.replicate 99 0)).valueAtRisk95
        ∧ (analyze ((-1 : ℚ) :: List.replicate 99 0)).valueAtRisk95 ≤
          (analyze ((-1 : ℚ) :: List.replicate 99 0)).expectedProfit
        ∧ (analyze ((-1 : ℚ) :: List.replicate 99 0)).expectedProfit ≤
          (analyze ((-1 : ℚ) :: List.replicate 99 0)).bestCase99pct) := by
  constructor
  · decide
  · decide

/-- C8 amended: for every non-empty sample the percentile-based statistics
are ordered, `worstCase1pct ≤ valueAtRisk95 ≤ bestCase99pct`; the expected
profit need not lie between them. -/
theorem C8_percentile_order (profits : List ℚ) (hne : profits ≠ []) :
    (analyze profits).worstCase1pct ≤ (analyze profits).valueAtRisk95
    ∧ (analyze profits).valueAtRisk95 ≤ (analyze profits).bestCase99pct :=
  ⟨percentile_mono profits hne 1 5 (by norm_num) (by norm_num) (by norm_num),
   percentile_mono profits hne 5 99 (by norm_num) (by norm_num)
     (by norm_num)⟩

/-- Witness for C8 amended on the sample `[3, 1, 2]`. -/
theorem C8_percentile_order_witness :
    (analyze [(3 : ℚ), 1, 2]).worstCase1pct ≤
      (analyze [(3 : ℚ), 1, 2]).valueAtRisk95
    ∧ (analyze [(3 : ℚ), 1, 2]).valueAtRisk95 ≤
      (analyze [(3 : ℚ), 1, 2]).bestCase99pct :=
  C8_percentile_order [(3 : ℚ), 1, 2] (by simp)
